import Mathlib

/-!
Verification of the render-scale widget (`render_scale_widget.ts`).

This file gives a shallow embedding of the numeric/graphical core of the
render-scale widget: the spatial-scale series ordering used by the stack
renderer and hover picker, the pixel-number formatter, the wheel-adjust
controller, the logarithmic height model, the stacked-bar layout with its
present/absent split, and the legend ("chunks") summary.

Modelling conventions:
* JavaScript numbers that the code treats as integers (counts, rows, bins)
  are embedded as `ℕ`/`ℤ`; pixel coordinates and the height model use `ℝ`
  (the code's floating-point arithmetic is idealised as real arithmetic);
  the wheel controller, which only multiplies and divides by 2, uses `ℚ`.
* Spatial-scale keys are embedded as natural numbers.  JavaScript's default
  `Array.prototype.sort()` compares elements by their string representation;
  for a natural number below 10^21 the ECMAScript string representation is
  the plain decimal numeral, so the comparison is modelled as lexicographic
  order on the lists of decimal digits (most significant digit first).
* `Math.round` is `round` (`⌊x + 1/2⌋`, which matches JavaScript's
  half-toward-positive-infinity behaviour), `Math.floor` is `⌊·⌋`, and the
  `| 0` coercion applied to a non-integral value truncates toward zero.
* The histogram buffer is a total function `ℕ → ℕ` from flat indices to
  counts; for row `r` and bin `i` the present count lives at index
  `r * bins * 2 + i` and the absent count at `r * bins * 2 + i + bins`,
  exactly as in the source.
-/

namespace RenderScale

/-! ## Decimal digit strings (model of ECMAScript `ToString` on naturals) -/

/-- Decimal digits of `n`, most significant first, computed with explicit
fuel so that the definition is structurally recursive.  `0` maps to `[]`. -/
def jsDigitsAux : ℕ → ℕ → List ℕ
  | 0, _ => []
  | _ + 1, 0 => []
  | fuel + 1, n + 1 => jsDigitsAux fuel ((n + 1) / 10) ++ [(n + 1) % 10]

/-- Decimal digit list of a natural number, most significant digit first.
This models the ECMAScript string representation of a natural-number key
(each character of the decimal numeral, in order); `0` maps to the empty
list, which compares below every other digit list just as the string "0"
compares below the numeral of every positive number. -/
def jsDigits (n : ℕ) : List ℕ := jsDigitsAux (n + 1) n

/-- Reassemble a most-significant-first digit list into a number. -/
def ofMSF (l : List ℕ) : ℕ := l.foldl (fun acc d => acc * 10 + d) 0

/-- The comparison JavaScript's default sort applies to two natural-number
keys: lexicographic (string) order on their decimal representations. -/
def jsLe (a b : ℕ) : Prop := jsDigits a ≤ jsDigits b

/-- Strict string order on natural-number keys. -/
def jsLt (a b : ℕ) : Prop := jsDigits a < jsDigits b

instance : DecidableRel jsLe :=
  fun a b => inferInstanceAs (Decidable (jsDigits a ≤ jsDigits b))

instance : DecidableRel jsLt :=
  fun a b => inferInstanceAs (Decidable (jsDigits a < jsDigits b))

/-! ## Series iteration order (`updateView`, lines 183–184 and the two
descending loops) -/

/-- Model of `Array.from(spatialScales.keys())` followed by `.sort()` with the
default comparator: the registered keys in ascending string order.
(The sort result is independent of the sorting algorithm for distinct keys,
so insertion sort stands in for the engine's sort.) -/
def sortedSpatialScales (regKeys : List ℕ) : List ℕ :=
  List.insertionSort jsLe regKeys

/-- The order in which both the stack renderer and the hover picker walk
the series: index `numRows - 1` down to `0` of the sorted key array,
i.e. the reverse of the ascending string sort. -/
def seriesIterOrder (regKeys : List ℕ) : List ℕ :=
  (sortedSpatialScales regKeys).reverse

/-- Model of `spatialScales.get(key)`: the stable row index of a registered key.
Row indices are assigned in registration order, so the row of a key is its
position in the registration list. -/
def rowOf (regKeys : List ℕ) (k : ℕ) : ℕ := regKeys.indexOf k

/-! ## Wheel controller (`adjustViaWheel`, `getWheelMoveValue`) -/

/-- Model of `RenderScaleWidget.getWheelMoveValue`: returns `event.deltaY`. -/
def getWheelMoveValueBase (deltaY : ℚ) : ℚ := deltaY

/-- Model of `VolumeRenderingRenderScaleWidget.getWheelMoveValue`: returns
`-event.deltaY` (the sign-inverted variant). -/
def getWheelMoveValueVolume (deltaY : ℚ) : ℚ := -deltaY

/-- Model of `Math.sign`. -/
def jsSign (q : ℚ) : ℤ := if 0 < q then 1 else if q < 0 then -1 else 0

/-- Modelled from the spec: `clampToInterval` (from `neuroglancer/util/lerp`,
not under `src/`) clamps a value into a closed interval. -/
def clampToInterval (lo hi x : ℚ) : ℚ := min hi (max lo x)

/-- The configuration the wheel handler reads: `logScaleOrigin`,
`numRenderScaleHistogramBins`, `renderScaleHistogramBinSize` (the latter two
are constants of `neuroglancer/render_scale_statistics`, not under `src/`;
the spec lists them as input configuration, so they are parameters here). -/
structure WheelConfig where
  origin : ℤ
  bins : ℕ
  binWidth : ℚ

/-- The state the wheel handler mutates: the tracked target value and
the optional hover pair. -/
structure WidgetState where
  target : ℚ
  hover : Option (ℚ × ℚ)

/-- Model of `Math.round(this.logScaleOrigin + numRenderScaleHistogramBins *
renderScaleHistogramBinSize)`. -/
def logScaleMax (c : WheelConfig) : ℤ :=
  round ((c.origin : ℚ) + (c.bins : ℚ) * c.binWidth)

/-- Model of `RenderScaleWidget.adjustViaWheel` (lines 74–87).  The result pairs the
state after the handler with whether `event.preventDefault()` was invoked.
`gw` is the (possibly overridden) `getWheelMoveValue`. -/
def adjustViaWheel (gw : ℚ → ℚ) (c : WheelConfig) (s : WidgetState)
    (eventDeltaY : ℚ) : WidgetState × Bool :=
  let deltaY := gw eventDeltaY
  if deltaY = 0 then (s, false)
  else
    ({ target := clampToInterval ((2 : ℚ) ^ c.origin)
          ((2 : ℚ) ^ (logScaleMax c - 1))
          (s.target * (2 : ℚ) ^ jsSign deltaY),
       hover := none }, true)

/-- Configuration `bins = 10`, `binWidth = 1`, `origin = 0`: the configuration named by
the clamp-boundary property. -/
def cfg10 : WheelConfig := ⟨0, 10, 1⟩

/-- A state with target value `4` and no hover. -/
def st4 : WidgetState := ⟨4, none⟩

/-- One "increase" wheel action (positive delta) under `cfg10`. -/
def stepUp (s : WidgetState) : WidgetState :=
  (adjustViaWheel getWheelMoveValueBase cfg10 s 1).1

/-- One "decrease" wheel action (negative delta) under `cfg10`. -/
def stepDown (s : WidgetState) : WidgetState :=
  (adjustViaWheel getWheelMoveValueBase cfg10 s (-1)).1

/-! ## Histogram buffer reads (`updateView`, lines 179–203) -/

/-- Lines 179–181: on a draw pass the buffer is left alone when the
visibility flag is set, and zeroed in place (`histogramData.fill(0)`)
otherwise.  The result is the buffer contents the rest of the draw pass
(and every later reader) sees. -/
def drawPassBuffer (visible : Bool) (histogramData : ℕ → ℕ) : ℕ → ℕ :=
  if visible then histogramData else fun _ => 0

/-- Read of `histogramData[row * bins * 2 + i]`: the present count. -/
def presentCount (bins : ℕ) (data : ℕ → ℕ) (row i : ℕ) : ℕ :=
  data (row * bins * 2 + i)

/-- Read of `histogramData[row * bins * 2 + i + bins]`: the not-present count. -/
def notPresentCount (bins : ℕ) (data : ℕ → ℕ) (row i : ℕ) : ℕ :=
  data (row * bins * 2 + i + bins)

/-- The inner loop of lines 191–202: the total count of bin `i` summed
across all rows. -/
def binTotal (bins numRows : ℕ) (data : ℕ → ℕ) (i : ℕ) : ℕ :=
  (List.range numRows).foldl
    (fun c row => c + (presentCount bins data row i + notPresentCount bins data row i)) 0

/-- Lines 188–202: `maxCount` starts at `1` and takes the max with every
bin's total count. -/
def maxCount (bins numRows : ℕ) (data : ℕ → ℕ) : ℕ :=
  (List.range bins).foldl (fun m i => max (binTotal bins numRows data i) m) 1

/-- Total `totalPresent` accumulated over all bins and rows (lines 190–200). -/
def totalPresentAll (bins numRows : ℕ) (data : ℕ → ℕ) : ℕ :=
  (List.range bins).foldl
    (fun t i => (List.range numRows).foldl
      (fun u row => u + presentCount bins data row i) t) 0

/-- Total `totalNotPresent` accumulated over all bins and rows (lines 190–200),
before the `fakeChunkCount` subtraction. -/
def totalNotPresentAll (bins numRows : ℕ) (data : ℕ → ℕ) : ℕ :=
  (List.range bins).foldl
    (fun t i => (List.range numRows).foldl
      (fun u row => u + notPresentCount bins data row i) t) 0

/-- Per-row present total of the hovered series (lines 239–244). -/
def rowPresentTotal (bins : ℕ) (data : ℕ → ℕ) (row : ℕ) : ℕ :=
  (List.range bins).foldl (fun t i => t + data (2 * row * bins + i)) 0

/-- Per-row not-present total of the hovered series (lines 239–244). -/
def rowNotPresentTotal (bins : ℕ) (data : ℕ → ℕ) (row : ℕ) : ℕ :=
  (List.range bins).foldl (fun t i => t + data (2 * row * bins + i + bins)) 0

/-! ## Height model (lines 205–211) -/

/-- Model of `yScale = maxBarHeight / Math.log(1 + maxCount)`. -/
noncomputable def yScale (height : ℝ) (maxC : ℕ) : ℝ :=
  height / Real.log (1 + (maxC : ℝ))

/-- Model of `countToCanvasY(count) = height - Math.log(1 + count) * yScale`. -/
noncomputable def countToCanvasY (height : ℝ) (maxC : ℕ) (count : ℕ) : ℝ :=
  height - Real.log (1 + (count : ℝ)) * yScale height maxC

/-! ## Stack renderer (lines 272–293) -/

/-- Model of `binToCanvasX(bin) = bin * width / bins`. -/
noncomputable def binToCanvasX (width : ℝ) (bins : ℕ) (bin : ℝ) : ℝ :=
  bin * width / bins

/-- The split point `ySplit = (presentCount * yEnd + notPresentCount *
yStart) / count` between the present and absent sub-bands (line 287). -/
noncomputable def ySplitVal (present notPresent : ℕ) (yEnd yStart : ℝ) : ℝ :=
  ((present : ℝ) * yEnd + (notPresent : ℝ) * yStart)
    / ((present : ℝ) + (notPresent : ℝ))

/-- One stacked band drawn for a bin: the two `fillRect` calls of lines
288–291, recorded with the counts that produced them. -/
structure BandRect where
  key : ℕ
  present : ℕ
  notPresent : ℕ
  xStart : ℤ
  xEnd : ℤ
  yStart : ℤ
  yEnd : ℤ
  ySplit : ℝ

/-- The inner loop of lines 274–292 for bin `i`: walk the series in
iteration order, skip zero-count series, accumulate `sum`, and emit the
band rectangles. -/
noncomputable def renderBinAux (bins i : ℕ) (regKeys : List ℕ) (data : ℕ → ℕ)
    (width height : ℝ) (maxC : ℕ) : List ℕ → ℕ → List BandRect
  | [], _ => []
  | k :: rest, sum =>
    let row := rowOf regKeys k
    let index := row * bins * 2 + i
    let present := data index
    let notPresent := data (index + bins)
    let count := present + notPresent
    if count = 0 then renderBinAux bins i regKeys data width height maxC rest sum
    else
      let yStart := round (countToCanvasY height maxC sum)
      let yEnd := round (countToCanvasY height maxC (sum + count))
      { key := k, present := present, notPresent := notPresent,
        xStart := round (binToCanvasX width bins (i : ℝ)),
        xEnd := round (binToCanvasX width bins ((i : ℝ) + 1)),
        yStart := yStart, yEnd := yEnd,
        ySplit := ySplitVal present notPresent (yEnd : ℝ) (yStart : ℝ) }
        :: renderBinAux bins i regKeys data width height maxC rest (sum + count)

/-- The stacked bands drawn for bin `i`. -/
noncomputable def renderBin (bins i : ℕ) (regKeys : List ℕ) (data : ℕ → ℕ)
    (width height : ℝ) : List BandRect :=
  renderBinAux bins i regKeys data width height
    (maxCount bins regKeys.length data) (seriesIterOrder regKeys) 0

/-! ## Hover picking (lines 213–234) -/

open Classical in
/-- The loop of lines 219–232: walk the series in the same iteration order
as the renderer, skip zero-count series, accumulate `sum`, and return the
first series whose rounded band contains the pointer's y pixel. -/
noncomputable def hoverLoop (bins i : ℕ) (regKeys : List ℕ) (data : ℕ → ℕ)
    (height : ℝ) (maxC : ℕ) (hoverY : ℝ) : List ℕ → ℕ → Option ℕ
  | [], _ => none
  | k :: rest, sum =>
    let row := rowOf regKeys k
    let index := 2 * row * bins + i
    let count := data index + data (index + bins)
    if count = 0 then hoverLoop bins i regKeys data height maxC hoverY rest sum
    else
      let yStart := round (countToCanvasY height maxC sum)
      let yEnd := round (countToCanvasY height maxC (sum + count))
      if (yEnd : ℝ) ≤ hoverY ∧ hoverY ≤ (yStart : ℝ) then some k
      else hoverLoop bins i regKeys data height maxC hoverY rest (sum + count)

open Classical in
/-- Lines 213–234: resolve the hovered spatial scale.  `offsetOf` is the
external `getRenderScaleHistogramOffset(·, logScaleOrigin)` transform
(consumed through its contract; `render_scale_statistics` is not under
`src/`), `hover` is `hoverTarget.value`. -/
noncomputable def hoverPick (bins : ℕ) (regKeys : List ℕ) (data : ℕ → ℕ)
    (height : ℝ) (offsetOf : ℝ → ℝ) (hover : Option (ℝ × ℝ)) : Option ℕ :=
  match hover with
  | none => none
  | some hv =>
    let i : ℤ := ⌊offsetOf hv.1⌋
    if 0 ≤ i ∧ i < (bins : ℤ) then
      hoverLoop bins i.toNat regKeys data height
        (maxCount bins regKeys.length data) hv.2 (seriesIterOrder regKeys) 0
    else none

/-- The per-bin, per-series total count read by the hover loop (line 223):
`histogramData[2 * row * bins + i] + histogramData[2 * row * bins + i + bins]`. -/
def seriesCount (bins i : ℕ) (regKeys : List ℕ) (data : ℕ → ℕ) (k : ℕ) : ℕ :=
  data (2 * rowOf regKeys k * bins + i) + data (2 * rowOf regKeys k * bins + i + bins)

/-- Lines 235–255: the numerator and denominator of the
`totalPresent/(totalPresent + totalNotPresent)` legend text.  With no
hovered series the totals over all series are used (with `fakeChunkCount`
already subtracted from `totalNotPresent` on line 203); with a hovered
series the totals are recomputed over that series' row alone. -/
noncomputable def legendChunks (bins : ℕ) (regKeys : List ℕ) (data : ℕ → ℕ)
    (height : ℝ) (offsetOf : ℝ → ℝ) (fakeChunkCount : ℕ)
    (hover : Option (ℝ × ℝ)) : ℤ × ℤ :=
  match hoverPick bins regKeys data height offsetOf hover with
  | none =>
    let tp : ℤ := totalPresentAll bins regKeys.length data
    let tnp : ℤ := (totalNotPresentAll bins regKeys.length data : ℤ) - (fakeChunkCount : ℤ)
    (tp, tp + tnp)
  | some k =>
    let row := rowOf regKeys k
    let tp : ℤ := rowPresentTotal bins data row
    let tnp : ℤ := rowNotPresentTotal bins data row
    (tp, tp + tnp)

/-! ## Pixel-number formatter (lines 44–51) -/

/-- The `| 0` coercion applied to a (non-integral) number: truncation
toward zero. -/
noncomputable def jsTruncToward0 (r : ℝ) : ℤ := if 0 ≤ r then ⌊r⌋ else -⌊-r⌋

/-- Left-pad a string with the zero digit to length `k`. -/
def padZeros (k : ℕ) (s : String) : String :=
  String.mk (List.replicate (k - s.length) '0') ++ s

/-- Modelled from the spec: `numberToStringFixed`
(`neuroglancer/util/number_to_string`, not under `src/`) renders a
non-negative number rounded to exactly `digits` digits after the decimal
point, as JavaScript's `toFixed` does. -/
noncomputable def numberToStringFixed (x : ℝ) (digits : ℕ) : String :=
  let scaled : ℤ := round (x * (10 : ℝ) ^ digits)
  if digits = 0 then toString scaled
  else
    let ip := scaled / ((10 : ℤ) ^ digits)
    let fp := scaled % ((10 : ℤ) ^ digits)
    toString ip ++ "." ++ padZeros digits (toString fp)

open Classical in
/-- Model of `formatPixelNumber` (lines 44–51): integers between 1 and 1024 render
as the rounded integer; everything else renders as
`{coeff to 1 decimal}p{exponent}` with `exponent = Math.log2(x) | 0`. -/
noncomputable def formatPixelNumber (x : ℝ) : String :=
  if x < 1 ∨ 1024 < x then
    let exponent := jsTruncToward0 (Real.logb 2 x)
    let coeff := x / (2 : ℝ) ^ exponent
    numberToStringFixed coeff 1 ++ "p" ++ toString exponent
  else
    toString (round x)

open Classical in
/-- Modelled from the spec: the formatter exactly as the spec words it,
with `exponent = floor(log2(x))`, for comparison with the source's
`formatPixelNumber`. -/
noncomputable def formatPixelNumberSpec (x : ℝ) : String :=
  if x < 1 ∨ 1024 < x then
    let exponent := ⌊Real.logb 2 x⌋
    let coeff := x / (2 : ℝ) ^ exponent
    numberToStringFixed coeff 1 ++ "p" ++ toString exponent
  else
    toString (round x)

/-! ## Concrete buffers used by witnesses and counterexamples -/

/-- One-series buffer: bin 0 holds 3 present and 2 absent chunks. -/
def exampleData3 : ℕ → ℕ := fun n => if n = 0 then 3 else if n = 1 then 2 else 0

/-- Two-series buffer (`bins = 1`): row 0 holds 12 present chunks, row 1
holds 2 present and 1 absent chunk. -/
def exampleData6 : ℕ → ℕ :=
  fun n => if n = 0 then 12 else if n = 2 then 2 else if n = 3 then 1 else 0

/-- One-series buffer: bin 0 holds 3 present and 0 absent chunks. -/
def exampleData5 : ℕ → ℕ := fun n => if n = 0 then 3 else 0

/-! ## Correctness of the decimal-digit model -/

theorem ofMSF_append (l : List ℕ) (d : ℕ) :
    ofMSF (l ++ [d]) = ofMSF l * 10 + d := by
  simp [ofMSF, List.foldl_append]

theorem ofMSF_jsDigitsAux :
    ∀ fuel n : ℕ, n < 10 ^ fuel → ofMSF (jsDigitsAux fuel n) = n := by
  intro fuel
  induction fuel with
  | zero =>
    intro n h
    have hn : n = 0 := by simpa using h
    subst hn; rfl
  | succ fuel ih =>
    intro n h
    cases n with
    | zero => rfl
    | succ m =>
      have hd : (m + 1) / 10 < 10 ^ fuel := by
        rw [Nat.div_lt_iff_lt_mul (by norm_num)]
        calc m + 1 < 10 ^ (fuel + 1) := h
          _ = 10 ^ fuel * 10 := by rw [pow_succ]
      have hrec := ih ((m + 1) / 10) hd
      show ofMSF (jsDigitsAux fuel ((m + 1) / 10) ++ [(m + 1) % 10]) = m + 1
      rw [ofMSF_append, hrec]
      omega

theorem ofMSF_jsDigits (n : ℕ) : ofMSF (jsDigits n) = n := by
  have h : n < 10 ^ (n + 1) :=
    lt_of_lt_of_le (Nat.lt_pow_self (by norm_num) n)
      (Nat.pow_le_pow_right (by norm_num) (Nat.le_succ n))
  exact ofMSF_jsDigitsAux (n + 1) n h

theorem jsDigits_inj {m n : ℕ} (h : jsDigits m = jsDigits n) : m = n := by
  have h2 := congrArg ofMSF h
  rwa [ofMSF_jsDigits, ofMSF_jsDigits] at h2

/-! ## C1: series iteration order -/

/-- Claim C1, counterexample: with registered keys 9 and 10, the layout
order is not the descending iteration of the ascending *numeric* sort.
JavaScript's default sort places 10 before 9 ("10" < "9" as strings), so
the iteration order is `[9, 10]` while the claimed numeric order would be
`[10, 9]`. -/
theorem seriesIterOrder_numeric_counterexample :
    seriesIterOrder [9, 10]
      ≠ (List.insertionSort (fun a b => a ≤ b) [9, 10]).reverse := by
  decide

/-- Claim C1, amended: the series order used by the stack layout (drawing
and hover picking) is the ascending *lexicographic string* sort of the
registered keys' decimal representations, iterated in descending order
(so the lowest-sorted key is processed last); the order is a permutation
of the registered keys and is independent of the order in which row
indices were assigned. -/
theorem seriesIterOrder_string_sort (regKeys : List ℕ) :
    List.Pairwise (fun a b => jsLe b a) (seriesIterOrder regKeys)
    ∧ (seriesIterOrder regKeys).Perm regKeys
    ∧ ∀ regKeys2 : List ℕ, regKeys2.Perm regKeys →
        seriesIterOrder regKeys2 = seriesIterOrder regKeys := by
  haveI : IsTotal ℕ jsLe := ⟨fun a b => le_total (jsDigits a) (jsDigits b)⟩
  haveI : IsTrans ℕ jsLe := ⟨fun _ _ _ h1 h2 => le_trans h1 h2⟩
  haveI : IsAntisymm ℕ jsLe := ⟨fun _ _ h1 h2 => jsDigits_inj (le_antisymm h1 h2)⟩
  refine ⟨?_, ?_, ?_⟩
  · have hs := List.sorted_insertionSort jsLe regKeys
    simpa [seriesIterOrder, sortedSpatialScales, List.pairwise_reverse,
      Function.flip_def] using hs
  · exact (List.reverse_perm _).trans (List.perm_insertionSort _ _)
  · intro k2 hperm
    have hs2 : List.Sorted jsLe (sortedSpatialScales k2) :=
      List.sorted_insertionSort jsLe k2
    have hs1 : List.Sorted jsLe (sortedSpatialScales regKeys) :=
      List.sorted_insertionSort jsLe regKeys
    have hp : (sortedSpatialScales k2).Perm (sortedSpatialScales regKeys) :=
      (List.perm_insertionSort _ _).trans
        (hperm.trans (List.perm_insertionSort _ _).symm)
    have h1 := List.eq_of_perm_of_sorted hp hs2 hs1
    simp [seriesIterOrder, h1]

/-- Witness for the amended C1 at a concrete input: registering the keys
in the order `[10, 9]` yields the same layout order as `[9, 10]`. -/
theorem seriesIterOrder_string_sort_witness :
    seriesIterOrder [10, 9] = seriesIterOrder [9, 10] :=
  (seriesIterOrder_string_sort [9, 10]).2.2 [10, 9] (List.Perm.swap 9 10 [])

/-! ## C4 / C9: wheel controller -/

theorem logScaleMax_cfg10 : logScaleMax cfg10 = 10 := by
  simp only [logScaleMax, cfg10]
  norm_num

theorem stepUp_target (s : WidgetState) :
    (stepUp s).target = min 512 (max 1 (s.target * 2)) := by
  simp only [stepUp, adjustViaWheel, getWheelMoveValueBase, clampToInterval,
    jsSign, logScaleMax_cfg10]
  norm_num [cfg10]

theorem stepUp_iterate_target (n : ℕ) :
    ((stepUp)^[n] st4).target = min ((4 : ℚ) * 2 ^ n) 512 := by
  induction n with
  | zero =>
    simp only [Function.iterate_zero, id_eq, st4, pow_zero, mul_one]
    norm_num
  | succ n ih =>
    rw [Function.iterate_succ_apply', stepUp_target, ih]
    have h2 : (1 : ℚ) ≤ 2 ^ n := one_le_pow₀ (by norm_num)
    rcases le_total ((4 : ℚ) * 2 ^ n) 512 with h | h
    · rw [min_eq_left h, max_eq_right (by nlinarith), pow_succ, min_comm]
      ring_nf
    · rw [min_eq_right h]
      have h3 : (512 : ℚ) ≤ 4 * 2 ^ (n + 1) := by rw [pow_succ]; nlinarith
      rw [min_eq_right h3]
      norm_num

/-- Claim C4: for every non-zero wheel delta the adjust action sets the
target to `clamp(target * 2 ^ sign(deltaY), [2^origin, 2^(logScaleMax-1)])`
with `logScaleMax = round(origin + bins * binWidth)`; for
`bins = 10, binWidth = 1, origin = 0` the bounds are `[1, 512]`; starting
from target 4 one increase gives 8, a second gives 16, iterated increases
follow `min (4 * 2^n) 512` (hence converge to 512 and never exceed it);
and every adjust result stays within the clamp bounds, in particular never
below `2^origin` when the bounds are ordered. -/
theorem adjustViaWheel_clamp_spec :
    (∀ (c : WheelConfig) (s : WidgetState) (d : ℚ), d ≠ 0 →
        (adjustViaWheel getWheelMoveValueBase c s d).1.target
          = clampToInterval ((2 : ℚ) ^ c.origin)
              ((2 : ℚ) ^ (logScaleMax c - 1)) (s.target * (2 : ℚ) ^ jsSign d))
    ∧ (2 : ℚ) ^ cfg10.origin = 1
    ∧ (2 : ℚ) ^ (logScaleMax cfg10 - 1) = 512
    ∧ (stepUp st4).target = 8
    ∧ (stepUp (stepUp st4)).target = 16
    ∧ (∀ n : ℕ, ((stepUp)^[n] st4).target = min ((4 : ℚ) * 2 ^ n) 512)
    ∧ (∀ n : ℕ, ((stepUp)^[n] st4).target ≤ 512)
    ∧ (∀ (c : WheelConfig) (s : WidgetState) (d : ℚ), d ≠ 0 →
        (adjustViaWheel getWheelMoveValueBase c s d).1.target
          ≤ (2 : ℚ) ^ (logScaleMax c - 1))
    ∧ (∀ (c : WheelConfig) (s : WidgetState) (d : ℚ), d ≠ 0 →
        c.origin ≤ logScaleMax c - 1 →
        (2 : ℚ) ^ c.origin ≤ (adjustViaWheel getWheelMoveValueBase c s d).1.target) := by
  have hgen : ∀ (c : WheelConfig) (s : WidgetState) (d : ℚ), d ≠ 0 →
      (adjustViaWheel getWheelMoveValueBase c s d).1.target
        = clampToInterval ((2 : ℚ) ^ c.origin)
            ((2 : ℚ) ^ (logScaleMax c - 1)) (s.target * (2 : ℚ) ^ jsSign d) := by
    intro c s d hd
    simp [adjustViaWheel, getWheelMoveValueBase, hd]
  refine ⟨hgen, by norm_num [cfg10], by rw [logScaleMax_cfg10]; norm_num, ?_, ?_,
    stepUp_iterate_target, ?_, ?_, ?_⟩
  · have h := stepUp_iterate_target 1
    rw [Function.iterate_one] at h
    rw [h]; norm_num
  · have h := stepUp_iterate_target 2
    rw [Function.iterate_succ_apply', Function.iterate_one] at h
    rw [h]; norm_num
  · intro n
    rw [stepUp_iterate_target n]
    exact min_le_right _ _
  · intro c s d hd
    rw [hgen c s d hd]
    exact min_le_left _ _
  · intro c s d hd hcle
    rw [hgen c s d hd]
    exact le_min (zpow_le_zpow_right₀ (by norm_num) hcle) (le_max_left _ _)

/-- Witness for C4: a concrete non-zero delta from the concrete state. -/
theorem adjustViaWheel_clamp_spec_witness :
    (adjustViaWheel getWheelMoveValueBase cfg10 st4 1).1.target
      = clampToInterval ((2 : ℚ) ^ cfg10.origin)
          ((2 : ℚ) ^ (logScaleMax cfg10 - 1)) (st4.target * (2 : ℚ) ^ jsSign 1) :=
  adjustViaWheel_clamp_spec.1 cfg10 st4 1 (by norm_num)

/-- Claim C9: a wheel event whose (possibly sign-inverted) delta is zero is a
no-op — the state (target and hover) is returned unchanged and
`preventDefault` is not invoked; a non-zero delta clears the hover state
(and does invoke `preventDefault`). -/
theorem adjustViaWheel_zero_delta_noop :
    (∀ (c : WheelConfig) (s : WidgetState) (d : ℚ), getWheelMoveValueBase d = 0 →
        adjustViaWheel getWheelMoveValueBase c s d = (s, false))
    ∧ (∀ (c : WheelConfig) (s : WidgetState) (d : ℚ), getWheelMoveValueVolume d = 0 →
        adjustViaWheel getWheelMoveValueVolume c s d = (s, false))
    ∧ (∀ (c : WheelConfig) (s : WidgetState) (d : ℚ), getWheelMoveValueBase d ≠ 0 →
        (adjustViaWheel getWheelMoveValueBase c s d).1.hover = none
          ∧ (adjustViaWheel getWheelMoveValueBase c s d).2 = true)
    ∧ (∀ (c : WheelConfig) (s : WidgetState) (d : ℚ), getWheelMoveValueVolume d ≠ 0 →
        (adjustViaWheel getWheelMoveValueVolume c s d).1.hover = none
          ∧ (adjustViaWheel getWheelMoveValueVolume c s d).2 = true) := by
  refine ⟨?_, ?_, ?_, ?_⟩ <;> intro c s d hd <;>
    simp [adjustViaWheel, hd]

/-- Witness for C9: a zero-delta wheel event on a concrete hovering state
leaves the state (including target and hover) unchanged and does not
suppress the event. -/
theorem adjustViaWheel_zero_delta_noop_witness :
    adjustViaWheel getWheelMoveValueBase cfg10 ⟨4, some (2, 3)⟩ 0
      = (⟨4, some (2, 3)⟩, false) :=
  adjustViaWheel_zero_delta_noop.1 cfg10 ⟨4, some (2, 3)⟩ 0 rfl

/-! ## C8: visibility zeroing -/

/-- Claim C8: the draw pass leaves the histogram buffer untouched exactly
when the visibility flag is set; when the flag is false every entry of the
buffer the draw pass (and every later reader) sees is zero. -/
theorem drawPassBuffer_spec :
    (∀ histogramData : ℕ → ℕ, drawPassBuffer true histogramData = histogramData)
    ∧ ∀ (histogramData : ℕ → ℕ) (idx : ℕ),
        drawPassBuffer false histogramData idx = 0 := by
  constructor <;> intro histogramData <;> simp [drawPassBuffer]

/-! ## C5: height model -/

theorem one_le_maxCount (bins numRows : ℕ) (data : ℕ → ℕ) :
    1 ≤ maxCount bins numRows data := by
  have key : ∀ (l : List ℕ) (init : ℕ),
      init ≤ l.foldl (fun m i => max (binTotal bins numRows data i) m) init := by
    intro l
    induction l with
    | nil => intro init; simp
    | cons a t ih =>
      intro init
      calc init ≤ max (binTotal bins numRows data a) init := le_max_right _ _
        _ ≤ _ := ih _
  exact key (List.range bins) 1

theorem log_one_add_maxCount_pos (bins numRows : ℕ) (data : ℕ → ℕ) :
    0 < Real.log (1 + (maxCount bins numRows data : ℝ)) := by
  apply Real.log_pos
  have h := one_le_maxCount bins numRows data
  have h2 : (1 : ℝ) ≤ (maxCount bins numRows data : ℝ) := by exact_mod_cast h
  linarith

theorem countToCanvasY_zero (height : ℝ) (maxC : ℕ) :
    countToCanvasY height maxC 0 = height := by
  simp [countToCanvasY, yScale]

theorem countToCanvasY_maxCount (height : ℝ) (maxC : ℕ) (h : 1 ≤ maxC) :
    countToCanvasY height maxC maxC = 0 := by
  have h2 : (1 : ℝ) ≤ (maxC : ℝ) := by exact_mod_cast h
  have hlog : Real.log (1 + (maxC : ℝ)) ≠ 0 :=
    ne_of_gt (Real.log_pos (by linarith))
  simp only [countToCanvasY, yScale]
  field_simp

theorem yScale_nonneg (height : ℝ) (maxC : ℕ) (hh : 0 ≤ height) (hm : 1 ≤ maxC) :
    0 ≤ yScale height maxC := by
  have h2 : (1 : ℝ) ≤ (maxC : ℝ) := by exact_mod_cast hm
  exact div_nonneg hh (le_of_lt (Real.log_pos (by linarith)))

theorem countToCanvasY_antitone (height : ℝ) (maxC : ℕ) (hh : 0 ≤ height)
    (hm : 1 ≤ maxC) {c d : ℕ} (hcd : c ≤ d) :
    countToCanvasY height maxC d ≤ countToCanvasY height maxC c := by
  have hys := yScale_nonneg height maxC hh hm
  have hcast : (c : ℝ) ≤ (d : ℝ) := by exact_mod_cast hcd
  have hlog : Real.log (1 + (c : ℝ)) ≤ Real.log (1 + (d : ℝ)) :=
    Real.log_le_log (by positivity) (by linarith)
  simp only [countToCanvasY]
  nlinarith

/-- Claim C5: `maxCount` is floored at 1 for every buffer state, so the
`yScale` denominator `log(1 + maxCount)` is non-zero, and the height
mapping sends cumulative count 0 to the canvas baseline (`y = height`)
and `maxCount` to the top (`y = 0`), exactly. -/
theorem heightModel_spec (bins numRows : ℕ) (data : ℕ → ℕ) (height : ℝ) :
    1 ≤ maxCount bins numRows data
    ∧ Real.log (1 + (maxCount bins numRows data : ℝ)) ≠ 0
    ∧ countToCanvasY height (maxCount bins numRows data) 0 = height
    ∧ countToCanvasY height (maxCount bins numRows data)
        (maxCount bins numRows data) = 0 :=
  ⟨one_le_maxCount bins numRows data,
    ne_of_gt (log_one_add_maxCount_pos bins numRows data),
    countToCanvasY_zero _ _,
    countToCanvasY_maxCount _ _ (one_le_maxCount bins numRows data)⟩

/-! ## C10: the present/absent split tiles the band -/

/-- Claim C10: with a positive total count and `yEnd ≤ yStart`, the split
point is a convex combination lying between `yEnd` and `yStart`, and the
two sub-rectangle heights `ySplit - yEnd` and `yStart - ySplit` are
non-negative and sum exactly to the band height — the present and absent
sub-bands tile the band without overlap or gap. -/
theorem ySplit_convex (present notPresent : ℕ) (yEnd yStart : ℝ)
    (hc : 0 < present + notPresent) (hle : yEnd ≤ yStart) :
    (yEnd ≤ ySplitVal present notPresent yEnd yStart
      ∧ ySplitVal present notPresent yEnd yStart ≤ yStart)
    ∧ (0 ≤ ySplitVal present notPresent yEnd yStart - yEnd
      ∧ 0 ≤ yStart - ySplitVal present notPresent yEnd yStart)
    ∧ (ySplitVal present notPresent yEnd yStart - yEnd)
        + (yStart - ySplitVal present notPresent yEnd yStart)
        = yStart - yEnd := by
  have hcR : (0 : ℝ) < (present : ℝ) + (notPresent : ℝ) := by
    have : (0 : ℝ) < ((present + notPresent : ℕ) : ℝ) := by exact_mod_cast hc
    push_cast at this
    linarith
  have hp : (0 : ℝ) ≤ (present : ℝ) := Nat.cast_nonneg _
  have hnp : (0 : ℝ) ≤ (notPresent : ℝ) := Nat.cast_nonneg _
  have h1 : yEnd ≤ ySplitVal present notPresent yEnd yStart := by
    rw [ySplitVal, le_div_iff₀ hcR]
    nlinarith
  have h2 : ySplitVal present notPresent yEnd yStart ≤ yStart := by
    rw [ySplitVal, div_le_iff₀ hcR]
    nlinarith
  exact ⟨⟨h1, h2⟩, ⟨by linarith, by linarith⟩, by ring⟩

/-- Witness for C10 at a concrete band: one present and one absent chunk
split the band `[0, 2]` into two unit sub-bands. -/
theorem ySplit_convex_witness :
    ((0 : ℝ) ≤ ySplitVal 1 1 0 2 ∧ ySplitVal 1 1 0 2 ≤ 2)
    ∧ ((0 : ℝ) ≤ ySplitVal 1 1 0 2 - 0 ∧ 0 ≤ 2 - ySplitVal 1 1 0 2)
    ∧ (ySplitVal 1 1 0 2 - 0) + (2 - ySplitVal 1 1 0 2) = 2 - 0 := by
  have h := ySplit_convex 1 1 0 2 (by norm_num) (by norm_num)
  simpa using h

/-! ## C7: zero-count series are skipped before the split division -/

theorem renderBinAux_mem_pos (bins i : ℕ) (regKeys : List ℕ) (data : ℕ → ℕ)
    (width height : ℝ) (maxC : ℕ) :
    ∀ (order : List ℕ) (sum : ℕ) (b : BandRect),
      b ∈ renderBinAux bins i regKeys data width height maxC order sum →
      0 < b.present + b.notPresent := by
  intro order
  induction order with
  | nil => intro sum b hb; simp [renderBinAux] at hb
  | cons k rest ih =>
    intro sum b hb
    rw [renderBinAux] at hb
    by_cases hzero :
        data (rowOf regKeys k * bins * 2 + i)
          + data (rowOf regKeys k * bins * 2 + i + bins) = 0
    · rw [if_pos hzero] at hb
      exact ih _ _ hb
    · rw [if_neg hzero] at hb
      rcases List.mem_cons.mp hb with hb1 | hb2
      · subst hb1
        simpa using Nat.pos_of_ne_zero hzero
      · exact ih _ _ hb2

/-- Claim C7: every band the renderer emits comes from a series whose total
count at that bin is positive — zero-count series are skipped before the
`ySplit` division, so that division is never evaluated with a zero
denominator. -/
theorem renderBin_no_zero_count (bins i : ℕ) (regKeys : List ℕ)
    (data : ℕ → ℕ) (width height : ℝ) :
    (renderBin bins i regKeys data width height).Forall
      (fun b => 0 < b.present + b.notPresent) := by
  rw [List.forall_iff_forall_mem]
  intro b hb
  exact renderBinAux_mem_pos bins i regKeys data width height _ _ _ b hb

/-! ## C6: hover picking -/

theorem round_mono_of_le {x y : ℝ} (h : x ≤ y) : round x ≤ round y := by
  rw [round_eq, round_eq]
  exact Int.floor_mono (by linarith)

theorem jsLt_ne {a b : ℕ} (h : jsLt a b) : a ≠ b := by
  intro heq
  rw [heq] at h
  exact lt_irrefl _ h

theorem rowOf_pair_fst (a b : ℕ) : rowOf [a, b] a = 0 := by
  simp [rowOf]

theorem rowOf_pair_snd {a b : ℕ} (h : a ≠ b) : rowOf [a, b] b = 1 := by
  simp [rowOf, List.indexOf_cons_ne _ h]

theorem seriesIterOrder_pair {a b : ℕ} (h : jsLe a b) :
    seriesIterOrder [a, b] = [b, a] := by
  simp [seriesIterOrder, sortedSpatialScales, List.insertionSort,
    List.orderedInsert, h]

theorem hoverPick_in_range (bins : ℕ) (regKeys : List ℕ) (data : ℕ → ℕ)
    (height : ℝ) (offsetOf : ℝ → ℝ) (v py : ℝ) (i : ℕ)
    (hi : ⌊offsetOf v⌋ = (i : ℤ)) (hibins : i < bins) :
    hoverPick bins regKeys data height offsetOf (some (v, py))
      = hoverLoop bins i regKeys data height
          (maxCount bins regKeys.length data) py (seriesIterOrder regKeys) 0 := by
  simp only [hoverPick, hi]
  rw [if_pos ⟨Int.natCast_nonneg i, by exact_mod_cast hibins⟩]
  simp

open Classical in
theorem hoverLoop_pair (bins i a b : ℕ) (data : ℕ → ℕ) (height : ℝ)
    (maxC : ℕ) (py : ℝ) (hne : a ≠ b)
    (hcb : seriesCount bins i [a, b] data b ≠ 0)
    (hca : seriesCount bins i [a, b] data a ≠ 0) :
    hoverLoop bins i [a, b] data height maxC py [b, a] 0
      = if (round (countToCanvasY height maxC (seriesCount bins i [a, b] data b)) : ℝ) ≤ py
            ∧ py ≤ (round (countToCanvasY height maxC 0) : ℝ)
        then some b
        else if (round (countToCanvasY height maxC
              (seriesCount bins i [a, b] data b + seriesCount bins i [a, b] data a)) : ℝ) ≤ py
            ∧ py ≤ (round (countToCanvasY height maxC (seriesCount bins i [a, b] data b)) : ℝ)
        then some a
        else none := by
  have hrb : rowOf [a, b] b = 1 := rowOf_pair_snd hne
  have hra : rowOf [a, b] a = 0 := rowOf_pair_fst a b
  simp only [seriesCount, hrb, hra] at hcb hca ⊢
  simp only [Nat.mul_zero, Nat.zero_mul, Nat.zero_add] at hca
  have hca2 : ¬(data i = 0 ∧ data (i + bins) = 0) := by omega
  simp [hoverLoop, hrb, hra, hcb, hca, hca2, Nat.zero_add]

/-- Claim C6: a probed bin index outside `[0, bins)` hovers no series;
inside the range, with two registered series stacked in the iteration
order (string order `a` before `b`, so `b`'s band is at the bottom), a
pointer strictly inside a band picks exactly that band's series, and a
pointer above the topmost band or below the baseline picks none. -/
theorem hoverPick_partition :
    (∀ (bins : ℕ) (regKeys : List ℕ) (data : ℕ → ℕ) (height : ℝ)
        (offsetOf : ℝ → ℝ) (v py : ℝ),
        (⌊offsetOf v⌋ < 0 ∨ (bins : ℤ) ≤ ⌊offsetOf v⌋) →
        hoverPick bins regKeys data height offsetOf (some (v, py)) = none)
    ∧ (∀ (bins i a b : ℕ) (data : ℕ → ℕ) (height : ℝ)
        (offsetOf : ℝ → ℝ) (v py : ℝ) (cb ca : ℕ) (yS0 yE2 yE1 : ℤ),
        jsLt a b → 0 ≤ height →
        ⌊offsetOf v⌋ = (i : ℤ) → i < bins →
        cb = seriesCount bins i [a, b] data b →
        ca = seriesCount bins i [a, b] data a →
        0 < cb → 0 < ca →
        yS0 = round (countToCanvasY height (maxCount bins 2 data) 0) →
        yE2 = round (countToCanvasY height (maxCount bins 2 data) cb) →
        yE1 = round (countToCanvasY height (maxCount bins 2 data) (cb + ca)) →
        (((yE2 : ℝ) < py ∧ py < (yS0 : ℝ)) →
            hoverPick bins [a, b] data height offsetOf (some (v, py)) = some b)
        ∧ (((yE1 : ℝ) < py ∧ py < (yE2 : ℝ)) →
            hoverPick bins [a, b] data height offsetOf (some (v, py)) = some a)
        ∧ (py < (yE1 : ℝ) →
            hoverPick bins [a, b] data height offsetOf (some (v, py)) = none)
        ∧ ((yS0 : ℝ) < py →
            hoverPick bins [a, b] data height offsetOf (some (v, py)) = none)) := by
  constructor
  · intro bins regKeys data height offsetOf v py h
    simp only [hoverPick]
    rw [if_neg]
    intro hc
    obtain ⟨hc1, hc2⟩ := hc
    rcases h with h | h <;> omega
  · intro bins i a b data height offsetOf v py cb ca yS0 yE2 yE1
    intro hab hh hi hibins hcbeq hcaeq hcbpos hcapos hyS0 hyE2 hyE1
    subst hcbeq; subst hcaeq; subst hyS0; subst hyE2; subst hyE1
    have hne : a ≠ b := jsLt_ne hab
    have horder : seriesIterOrder [a, b] = [b, a] :=
      seriesIterOrder_pair (le_of_lt hab)
    have hpick := hoverPick_in_range bins [a, b] data height offsetOf v py i hi hibins
    rw [horder] at hpick
    have hlen : ([a, b] : List ℕ).length = 2 := rfl
    rw [hlen] at hpick
    have hm1 : 1 ≤ maxCount bins 2 data := one_le_maxCount bins 2 data
    have hloop := hoverLoop_pair bins i a b data height
      (maxCount bins 2 data) py hne hcbpos.ne' hcapos.ne'
    rw [hloop] at hpick
    set m := maxCount bins 2 data with hmdef
    set CB := seriesCount bins i [a, b] data b with hCBdef
    set CA := seriesCount bins i [a, b] data a with hCAdef
    have h1le : round (countToCanvasY height m (CB + CA))
        ≤ round (countToCanvasY height m CB) :=
      round_mono_of_le (countToCanvasY_antitone height _ hh hm1
        (Nat.le_add_right _ _))
    have h2le : round (countToCanvasY height m CB)
        ≤ round (countToCanvasY height m 0) :=
      round_mono_of_le (countToCanvasY_antitone height _ hh hm1
        (Nat.zero_le _))
    have h1leR : ((round (countToCanvasY height m (CB + CA)) : ℤ) : ℝ)
        ≤ ((round (countToCanvasY height m CB) : ℤ) : ℝ) := by
      exact_mod_cast h1le
    have h2leR : ((round (countToCanvasY height m CB) : ℤ) : ℝ)
        ≤ ((round (countToCanvasY height m 0) : ℤ) : ℝ) := by
      exact_mod_cast h2le
    refine ⟨?_, ?_, ?_, ?_⟩
    · rintro ⟨hlo, hhi⟩
      rw [hpick, if_pos ⟨le_of_lt hlo, le_of_lt hhi⟩]
    · rintro ⟨hlo, hhi⟩
      rw [hpick, if_neg (fun hc => absurd hc.1 (not_le.mpr hhi)),
        if_pos ⟨le_of_lt hlo, le_of_lt hhi⟩]
    · intro hlt
      rw [hpick, if_neg, if_neg]
      · intro hc
        exact absurd hc.1 (not_le.mpr hlt)
      · intro hc
        have := hc.1
        linarith
    · intro hgt
      rw [hpick, if_neg, if_neg]
      · intro hc
        have := hc.2
        linarith
      · intro hc
        exact absurd hc.2 (not_le.mpr hgt)

/-- Witness for C6 at a concrete chart: two registered series (keys 1 and
2), bin 0 of 1, canvas height 4; the bottom band (key 2) spans pixels
2–4 and the top band (key 1) spans 0–2; the pointer at `y = 3` picks the
bottom series, key 2. -/
theorem hoverPick_partition_witness :
    hoverPick 1 [1, 2] exampleData6 4 (fun v => v) (some (1 / 2, 3)) = some 2 := by
  have hmax : maxCount 1 2 exampleData6 = 15 := by decide
  have hy0 : round (countToCanvasY 4 (maxCount 1 2 exampleData6) 0) = 4 := by
    rw [countToCanvasY_zero]
    norm_num
  have hy3 : round (countToCanvasY 4 (maxCount 1 2 exampleData6) 3) = 2 := by
    rw [hmax]
    have hlog : Real.log (1 + ((15 : ℕ) : ℝ)) = 2 * Real.log 4 := by
      rw [show (1 + ((15 : ℕ) : ℝ)) = 4 ^ (2 : ℕ) by push_cast; norm_num]
      rw [Real.log_pow]
      push_cast; ring
    have hval : countToCanvasY 4 15 3 = 2 := by
      rw [countToCanvasY, yScale, hlog]
      rw [show (1 + ((3 : ℕ) : ℝ)) = 4 by push_cast; norm_num]
      have hl4 : (0 : ℝ) < Real.log 4 := Real.log_pos (by norm_num)
      field_simp
      ring
    rw [hval]
    norm_num
  have hy15 : round (countToCanvasY 4 (maxCount 1 2 exampleData6) (3 + 12)) = 0 := by
    rw [hmax, show (3 + 12 : ℕ) = 15 from rfl,
      countToCanvasY_maxCount 4 15 (by norm_num)]
    exact round_zero
  have h := (hoverPick_partition.2 1 0 1 2 exampleData6 4 (fun v => v) (1 / 2) 3
      3 12 4 2 0 (by decide) (by norm_num) (by norm_num) (by norm_num)
      (by decide) (by decide) (by norm_num) (by norm_num)
      hy0.symm hy3.symm hy15.symm).1
  exact h (by norm_num)

/-! ## C3: the fakeChunkCount subtraction -/

open Classical in
theorem hoverLoop_single (bins i k : ℕ) (data : ℕ → ℕ) (height : ℝ)
    (maxC : ℕ) (py : ℝ) (hck : seriesCount bins i [k] data k ≠ 0) :
    hoverLoop bins i [k] data height maxC py [k] 0
      = if (round (countToCanvasY height maxC (seriesCount bins i [k] data k)) : ℝ) ≤ py
            ∧ py ≤ (round (countToCanvasY height maxC 0) : ℝ)
        then some k else none := by
  have hr : rowOf [k] k = 0 := by simp [rowOf]
  simp only [seriesCount, hr] at hck ⊢
  simp only [Nat.mul_zero, Nat.zero_mul, Nat.zero_add] at hck
  have hck2 : ¬(data i = 0 ∧ data (i + bins) = 0) := by omega
  simp [hoverLoop, hr, hck, hck2, Nat.zero_add]

/-- Claim C3, counterexample: with one registered series (3 present, 2
absent chunks at its single bin), `fakeChunkCount = 1` and the pointer
hovering that series, the legend shows `3/5`: the per-series totals of the
hover branch do **not** subtract `fakeChunkCount` (the claimed excluded
figure would have been `3/4`). -/
theorem legendChunks_fake_hover_counterexample :
    legendChunks 1 [5] exampleData3 4 (fun v => v) 1 (some (1 / 2, 2)) = (3, 5)
    ∧ rowPresentTotal 1 exampleData3 0 = 3
    ∧ rowNotPresentTotal 1 exampleData3 0 = 2
    ∧ (5 : ℤ) ≠ 3 + ((2 : ℤ) - 1) := by
  have hpick : hoverPick 1 [5] exampleData3 4 (fun v => v) (some (1 / 2, 2))
      = some 5 := by
    rw [hoverPick_in_range 1 [5] exampleData3 4 (fun v => v) (1 / 2) 2 0
      (by norm_num) (by norm_num)]
    have hord : seriesIterOrder [5] = [5] := by decide
    rw [hord, show ([5] : List ℕ).length = 1 from rfl]
    rw [hoverLoop_single 1 0 5 exampleData3 4 (maxCount 1 1 exampleData3) 2
      (by decide)]
    rw [show maxCount 1 1 exampleData3 = 5 from by decide,
      show seriesCount 1 0 [5] exampleData3 5 = 5 from by decide,
      countToCanvasY_maxCount 4 5 (by norm_num), countToCanvasY_zero,
      round_zero]
    rw [if_pos]
    constructor
    · norm_num
    · have h4 : round (4 : ℝ) = 4 := by norm_num
      rw [h4]
      norm_num
  refine ⟨?_, by decide, by decide, by decide⟩
  simp only [legendChunks, hpick]
  decide

/-- Claim C3, amended: the caller-supplied `fakeChunkCount` is excluded
from the "total absent" figure only when no series is hovered; when a
series is hovered, the per-series totals shown are the hovered row's raw
present and absent sums, with no `fakeChunkCount` subtraction. -/
theorem legendChunks_fake_spec :
    ∀ (bins : ℕ) (regKeys : List ℕ) (data : ℕ → ℕ) (height : ℝ)
      (offsetOf : ℝ → ℝ) (fakeChunkCount : ℕ) (hover : Option (ℝ × ℝ)),
      (hoverPick bins regKeys data height offsetOf hover = none →
        legendChunks bins regKeys data height offsetOf fakeChunkCount hover
          = ((totalPresentAll bins regKeys.length data : ℤ),
             (totalPresentAll bins regKeys.length data : ℤ)
               + ((totalNotPresentAll bins regKeys.length data : ℤ)
                   - (fakeChunkCount : ℤ))))
      ∧ ∀ k : ℕ, hoverPick bins regKeys data height offsetOf hover = some k →
          legendChunks bins regKeys data height offsetOf fakeChunkCount hover
            = ((rowPresentTotal bins data (rowOf regKeys k) : ℤ),
               (rowPresentTotal bins data (rowOf regKeys k) : ℤ)
                 + (rowNotPresentTotal bins data (rowOf regKeys k) : ℤ)) := by
  intro bins regKeys data height offsetOf fakeChunkCount hover
  constructor
  · intro h
    simp [legendChunks, h]
  · intro k h
    simp [legendChunks, h]

/-- Witness for the amended C3 with no hover: the legend denominator is
the all-series total with `fakeChunkCount` subtracted. -/
theorem legendChunks_fake_spec_witness :
    legendChunks 1 [5] exampleData3 4 (fun v => v) 1 none
      = ((totalPresentAll 1 ([5] : List ℕ).length exampleData3 : ℤ),
         (totalPresentAll 1 ([5] : List ℕ).length exampleData3 : ℤ)
           + ((totalNotPresentAll 1 ([5] : List ℕ).length exampleData3 : ℤ)
               - ((1 : ℕ) : ℤ))) :=
  (legendChunks_fake_spec 1 [5] exampleData3 4 (fun v => v) 1 none).1 rfl

/-! ## C2: the pixel-number formatter -/

theorem logb_two_pow_eleven : Real.logb 2 2048 = 11 := by
  rw [show (2048 : ℝ) = 2 ^ (11 : ℕ) by norm_num, Real.logb_pow,
    Real.logb_self_eq_one (by norm_num)]
  norm_num

theorem logb_two_half : Real.logb 2 (1 / 2) = -1 := by
  rw [show (1 / 2 : ℝ) = 2⁻¹ by norm_num, Real.logb_inv,
    Real.logb_self_eq_one (by norm_num)]

theorem logb_three_tenths_lt : Real.logb 2 (3 / 10) < -1 := by
  rw [Real.logb_lt_iff_lt_rpow (by norm_num) (by norm_num)]
  rw [show ((-1 : ℝ)) = ((-1 : ℤ) : ℝ) by norm_num, Real.rpow_intCast]
  norm_num

theorem logb_three_tenths_gt : (-2 : ℝ) < Real.logb 2 (3 / 10) := by
  rw [Real.lt_logb_iff_rpow_lt (by norm_num) (by norm_num)]
  rw [show ((-2 : ℝ)) = ((-2 : ℤ) : ℝ) by norm_num, Real.rpow_intCast]
  norm_num

theorem trunc_logb_three_tenths :
    jsTruncToward0 (Real.logb 2 (3 / 10)) = -1 := by
  have h1 := logb_three_tenths_lt
  have h2 := logb_three_tenths_gt
  rw [jsTruncToward0, if_neg (by linarith)]
  have hfl : ⌊-Real.logb 2 (3 / 10)⌋ = 1 := by
    apply Int.floor_eq_iff.mpr
    constructor <;> push_cast <;> linarith
  rw [hfl]

theorem floor_logb_three_tenths : ⌊Real.logb 2 (3 / 10)⌋ = -2 := by
  apply Int.floor_eq_iff.mpr
  constructor <;> push_cast
  · linarith [logb_three_tenths_gt]
  · linarith [logb_three_tenths_lt]

theorem formatPixelNumber_three_tenths :
    formatPixelNumber (3 / 10) = "0.6p-1" := by
  simp only [formatPixelNumber]
  rw [if_pos (Or.inl (by norm_num : (3 / 10 : ℝ) < 1))]
  rw [trunc_logb_three_tenths]
  rw [show (3 / 10 : ℝ) / (2 : ℝ) ^ (-1 : ℤ) = 3 / 5 by norm_num]
  have h : round ((3 / 5 : ℝ) * (10 : ℝ) ^ (1 : ℕ)) = 6 := by norm_num
  simp only [numberToStringFixed, h]
  decide

theorem formatPixelNumberSpec_three_tenths :
    formatPixelNumberSpec (3 / 10) = "1.2p-2" := by
  simp only [formatPixelNumberSpec]
  rw [if_pos (Or.inl (by norm_num : (3 / 10 : ℝ) < 1))]
  rw [floor_logb_three_tenths]
  rw [show (3 / 10 : ℝ) / (2 : ℝ) ^ (-2 : ℤ) = 6 / 5 by norm_num]
  have h : round ((6 / 5 : ℝ) * (10 : ℝ) ^ (1 : ℕ)) = 12 := by norm_num
  simp only [numberToStringFixed, h]
  decide

theorem formatPixelNumber_2048 : formatPixelNumber 2048 = "1.0p11" := by
  simp only [formatPixelNumber]
  rw [if_pos (Or.inr (by norm_num : (1024 : ℝ) < 2048))]
  rw [logb_two_pow_eleven]
  rw [show jsTruncToward0 (11 : ℝ) = 11 by
    rw [jsTruncToward0, if_pos (by norm_num)]; norm_num]
  rw [show (2048 : ℝ) / (2 : ℝ) ^ (11 : ℤ) = 1 by norm_num]
  have h : round ((1 : ℝ) * (10 : ℝ) ^ (1 : ℕ)) = 10 := by norm_num
  simp only [numberToStringFixed, h]
  decide

theorem formatPixelNumber_half : formatPixelNumber (1 / 2) = "1.0p-1" := by
  simp only [formatPixelNumber]
  rw [if_pos (Or.inl (by norm_num : (1 / 2 : ℝ) < 1))]
  rw [logb_two_half]
  rw [show jsTruncToward0 (-1 : ℝ) = -1 by
    rw [jsTruncToward0, if_neg (by norm_num)]; norm_num]
  rw [show (1 / 2 : ℝ) / (2 : ℝ) ^ (-1 : ℤ) = 1 by norm_num]
  have h : round ((1 : ℝ) * (10 : ℝ) ^ (1 : ℕ)) = 10 := by norm_num
  simp only [numberToStringFixed, h]
  decide

/-- Claim C2, counterexample: at `x = 3/10` the source formatter truncates
`log2(x) ≈ -1.74` toward zero (`| 0`), giving exponent `-1` and the string
`"0.6p-1"`, while the claimed `floor(log2(x))` gives exponent `-2` and
`"1.2p-2"` — the two disagree. -/
theorem formatPixelNumber_floor_counterexample :
    formatPixelNumber (3 / 10) = "0.6p-1"
    ∧ formatPixelNumberSpec (3 / 10) = "1.2p-2"
    ∧ formatPixelNumber (3 / 10) ≠ formatPixelNumberSpec (3 / 10) := by
  refine ⟨formatPixelNumber_three_tenths, formatPixelNumberSpec_three_tenths, ?_⟩
  rw [formatPixelNumber_three_tenths, formatPixelNumberSpec_three_tenths]
  decide

/-- Claim C2, amended: for `1 ≤ x ≤ 1024` (boundary inclusive) the rounded
integer is rendered; otherwise the exponent is the *toward-zero
truncation* of `log2(x)` (not its floor — they differ for non-power-of-two
`x < 1`) and the string is `{coeff to 1 decimal}p{exponent}` with
`coeff = x / 2^exponent`; the four examples of the spec all hold. -/
theorem formatPixelNumber_trunc_spec :
    (∀ x : ℝ, 1 ≤ x → x ≤ 1024 → formatPixelNumber x = toString (round x))
    ∧ (∀ x : ℝ, (x < 1 ∨ 1024 < x) →
        formatPixelNumber x
          = numberToStringFixed (x / (2 : ℝ) ^ jsTruncToward0 (Real.logb 2 x)) 1
              ++ "p" ++ toString (jsTruncToward0 (Real.logb 2 x)))
    ∧ formatPixelNumber 512 = "512"
    ∧ formatPixelNumber 2048 = "1.0p11"
    ∧ formatPixelNumber (1 / 2) = "1.0p-1"
    ∧ formatPixelNumber 1024 = "1024" := by
  refine ⟨?_, ?_, ?_, formatPixelNumber_2048, formatPixelNumber_half, ?_⟩
  · intro x h1 h2
    simp only [formatPixelNumber]
    rw [if_neg]
    push_neg
    exact ⟨by linarith, by linarith⟩
  · intro x h
    simp only [formatPixelNumber]
    rw [if_pos h]
  · simp only [formatPixelNumber]
    rw [if_neg (by push_neg; norm_num)]
    rw [show round (512 : ℝ) = 512 by norm_num]
    decide
  · simp only [formatPixelNumber]
    rw [if_neg (by push_neg; norm_num)]
    rw [show round (1024 : ℝ) = 1024 by norm_num]
    decide

/-- Witness for the amended C2 in-range branch at `x = 512`. -/
theorem formatPixelNumber_trunc_spec_witness :
    formatPixelNumber 512 = toString (round (512 : ℝ)) :=
  formatPixelNumber_trunc_spec.1 512 (by norm_num) (by norm_num)

end RenderScale
